import Mathlib

/-!
Verification of the destination/currency/airport resolution and
flight-search orchestration pipeline of `api/roteiro.js`.

Strings are modelled as `List Char` (JS UTF-16 strings over the Latin
repertoire the program manipulates); JS numbers are modelled as `ℚ`
(every numeric value the pipeline produces is exactly representable),
with `Option ℚ` when a value can be `null`/`NaN`/absent.  Network calls
are modelled as explicit oracle parameters, and the functions also
return the list of requests they issue, so that "no network call" /
"retried once" statements are provable.
-/

namespace Roteiro

/-! ## Character-level model

JS string primitives used by `normalizeKey`, `parseBudgetBR`,
`looksLikeIata` and friends: `toLowerCase`/`toUpperCase`,
`normalize('NFD')`, the character classes `\s`, `\p{L}`, `\p{N}`,
`[̀-ͯ]` and `\w`.  The tables cover the Latin repertoire
(ASCII plus the accented letters appearing in the program's data);
this is the model's character universe. -/

/-- Association-list lookup (first match wins), used for all static tables. -/
def findVal {α : Type} : List (Char × α) → Char → Option α
  | [], _ => none
  | (k, v) :: rest, c => if c = k then some v else findVal rest c

/-- Model of `String.prototype.toLowerCase`, as a per-character table:
uppercase ASCII and accented uppercase map to their lowercase forms. -/
def lowerPairs : List (Char × Char) :=
  [('A','a'),('B','b'),('C','c'),('D','d'),('E','e'),('F','f'),('G','g'),
   ('H','h'),('I','i'),('J','j'),('K','k'),('L','l'),('M','m'),('N','n'),
   ('O','o'),('P','p'),('Q','q'),('R','r'),('S','s'),('T','t'),('U','u'),
   ('V','v'),('W','w'),('X','x'),('Y','y'),('Z','z'),
   ('Á','á'),('À','à'),('Â','â'),('Ã','ã'),('Ä','ä'),('É','é'),('Ê','ê'),
   ('Í','í'),('Ó','ó'),('Ô','ô'),('Õ','õ'),('Ú','ú'),('Ü','ü'),('Ç','ç')]

/-- Model of `String.prototype.toUpperCase`, per character (mirror of `lowerPairs`). -/
def upperPairs : List (Char × Char) :=
  [('a','A'),('b','B'),('c','C'),('d','D'),('e','E'),('f','F'),('g','G'),
   ('h','H'),('i','I'),('j','J'),('k','K'),('l','L'),('m','M'),('n','N'),
   ('o','O'),('p','P'),('q','Q'),('r','R'),('s','S'),('t','T'),('u','U'),
   ('v','V'),('w','W'),('x','X'),('y','Y'),('z','Z'),
   ('á','Á'),('à','À'),('â','Â'),('ã','Ã'),('ä','Ä'),('é','É'),('ê','Ê'),
   ('í','Í'),('ó','Ó'),('ô','Ô'),('õ','Õ'),('ú','Ú'),('ü','Ü'),('ç','Ç')]

def lowerC (c : Char) : Char := (findVal lowerPairs c).getD c

def upperC (c : Char) : Char := (findVal upperPairs c).getD c

/-- Canonical decomposition (`normalize('NFD')`) of the accented
lowercase letters: base letter followed by a combining mark
(U+0300 grave, U+0301 acute, U+0302 circumflex, U+0303 tilde,
U+0308 diaeresis, U+0327 cedilla). -/
def nfdPairs : List (Char × List Char) :=
  [('á',['a','\u0301']),('à',['a','\u0300']),('â',['a','\u0302']),
   ('ã',['a','\u0303']),('ä',['a','\u0308']),
   ('é',['e','\u0301']),('ê',['e','\u0302']),
   ('í',['i','\u0301']),
   ('ó',['o','\u0301']),('ô',['o','\u0302']),('õ',['o','\u0303']),
   ('ú',['u','\u0301']),('ü',['u','\u0308']),
   ('ç',['c','\u0327'])]

def nfdC (c : Char) : List Char := (findVal nfdPairs c).getD [c]

/-- NFD normalization of a whole string. -/
def nfdStr : List Char → List Char
  | [] => []
  | c :: r => nfdC c ++ nfdStr r

/-- The combining-diacritics block `[̀-ͯ]`. -/
def isCombining (c : Char) : Bool := decide (0x300 ≤ c.toNat ∧ c.toNat ≤ 0x36f)

/-- The regex class `\s` (whitespace), restricted to the ASCII whitespace
characters the model handles. -/
def isSpaceJ (c : Char) : Bool := c == ' ' || c == '\t' || c == '\n' || c == '\r'

/-- The accented letters of the model (both cases), for `\p{L}`. -/
def accentedChars : List Char :=
  ['á','à','â','ã','ä','é','ê','í','ó','ô','õ','ú','ü','ç',
   'Á','À','Â','Ã','Ä','É','Ê','Í','Ó','Ô','Õ','Ú','Ü','Ç']

/-- The regex class `\p{L}` (letters), over the model's repertoire. -/
def isLetterJ (c : Char) : Bool :=
  decide ('a' ≤ c ∧ c ≤ 'z') || decide ('A' ≤ c ∧ c ≤ 'Z') || accentedChars.contains c

/-- The regex class `\p{N}` (decimal digits in the model). -/
def isDigitJ (c : Char) : Bool := decide ('0' ≤ c ∧ c ≤ '9')

/-- Step `replace` of non-letter, non-digit, non-space characters by a space, per character. -/
def punctToSpace (c : Char) : Char :=
  if isLetterJ c || isDigitJ c || isSpaceJ c then c else ' '

/-- Step dropping the combining marks (the diacritics-removal `replace`). -/
def stripMarks (s : List Char) : List Char := s.filter (fun c => !isCombining c)

/-- Step collapsing every whitespace run to a single space.  The flag records whether the previous character was whitespace
(so the run emits only one `' '`). -/
def collapseAux : Bool → List Char → List Char
  | _, [] => []
  | prevSp, c :: rest =>
    if isSpaceJ c then
      if prevSp then collapseAux true rest
      else ' ' :: collapseAux true rest
    else c :: collapseAux false rest

def collapseWs (s : List Char) : List Char := collapseAux false s

/-- Remove a trailing whitespace run (the right half of `trim()`). -/
def dropTrailingWs : List Char → List Char
  | [] => []
  | c :: rest =>
    match dropTrailingWs rest with
    | [] => if isSpaceJ c then [] else [c]
    | r => c :: r

/-- Model of `String.prototype.trim`: strip leading and trailing whitespace. -/
def trimWs (s : List Char) : List Char :=
  dropTrailingWs (s.dropWhile (fun c => isSpaceJ c))

/-- Function `normalizeKey` from `api/roteiro.js`:
lowercase, NFD-decompose, strip combining marks, replace
non-letter/digit/space characters by spaces, collapse whitespace, trim. -/
def normalizeKey (s : List Char) : List Char :=
  trimWs (collapseWs ((stripMarks (nfdStr (s.map lowerC))).map punctToSpace))

/-! ## Idempotence of `normalizeKey` (claim C7)

A character is *clean* when every stage of the pipeline leaves it
unchanged; a string is *flat* when all its characters are clean, its
whitespace consists of single interior `' '` characters, and it neither
starts nor ends with whitespace.  `normalizeKey` always produces a flat
string, and is the identity on flat strings. -/

def Clean (c : Char) : Prop :=
  lowerC c = c ∧ nfdC c = [c] ∧ isCombining c = false ∧ punctToSpace c = c

instance (c : Char) : Decidable (Clean c) := by unfold Clean; infer_instance

def noLeadSpace : List Char → Bool
  | [] => true
  | c :: _ => !isSpaceJ c

def noTrailSpaceB : List Char → Bool
  | [] => true
  | c :: rest => if rest.isEmpty then !isSpaceJ c else noTrailSpaceB rest

def noAdjB : List Char → Bool
  | a :: b :: l => !(isSpaceJ a && isSpaceJ b) && noAdjB (b :: l)
  | _ => true

def FlatStr (l : List Char) : Prop :=
  (∀ c ∈ l, Clean c) ∧ (∀ c ∈ l, isSpaceJ c = true → c = ' ') ∧
    noAdjB l = true ∧ noLeadSpace l = true ∧ noTrailSpaceB l = true

theorem findVal_mem {α : Type} {ps : List (Char × α)} {c : Char} {v : α}
    (h : findVal ps c = some v) : (c, v) ∈ ps := by
  induction ps with
  | nil => simp [findVal] at h
  | cons p rest ih =>
    rw [findVal] at h
    split at h
    · rename_i heq
      cases h
      cases p
      simp_all
    · exact List.mem_cons_of_mem _ (ih h)

theorem clean_space : Clean ' ' := by decide

theorem nfd_lower_clean (c d : Char) (hd : d ∈ nfdC (lowerC c))
    (hcomb : isCombining d = false) : lowerC d = d ∧ nfdC d = [d] := by
  cases h1 : findVal lowerPairs c with
  | some v =>
    have hm := findVal_mem h1
    have hv : lowerC c = v := by simp [lowerC, h1]
    rw [hv] at hd
    have DF1 : ∀ p ∈ lowerPairs, ∀ e ∈ nfdC p.2,
        isCombining e = true ∨ (lowerC e = e ∧ nfdC e = [e]) := by decide
    rcases DF1 (c, v) hm d hd with h | h
    · rw [h] at hcomb; cases hcomb
    · exact h
  | none =>
    have hlc : lowerC c = c := by simp [lowerC, h1]
    rw [hlc] at hd
    cases h2 : findVal nfdPairs c with
    | some v =>
      have hm := findVal_mem h2
      have hv : nfdC c = v := by simp [nfdC, h2]
      rw [hv] at hd
      have DF2 : ∀ p ∈ nfdPairs, ∀ e ∈ p.2,
          isCombining e = true ∨ (lowerC e = e ∧ nfdC e = [e]) := by decide
      rcases DF2 (c, v) hm d hd with h | h
      · rw [h] at hcomb; cases hcomb
      · exact h
    | none =>
      have hn : nfdC c = [c] := by simp [nfdC, h2]
      rw [hn] at hd
      simp only [List.mem_singleton] at hd
      subst hd
      exact ⟨hlc, hn⟩

theorem mem_nfdStr {d : Char} :
    ∀ {xs : List Char}, d ∈ nfdStr xs → ∃ x ∈ xs, d ∈ nfdC x := by
  intro xs
  induction xs with
  | nil => intro h; simp [nfdStr] at h
  | cons c r ih =>
    intro h
    rw [nfdStr, List.mem_append] at h
    rcases h with h | h
    · exact ⟨c, List.mem_cons_self _ _, h⟩
    · rcases ih h with ⟨x, hx, hdx⟩
      exact ⟨x, List.mem_cons_of_mem _ hx, hdx⟩

theorem stage_clean (s : List Char) (d : Char)
    (hd : d ∈ (stripMarks (nfdStr (s.map lowerC))).map punctToSpace) : Clean d := by
  rcases List.mem_map.mp hd with ⟨e, he, rfl⟩
  rw [stripMarks, List.mem_filter] at he
  obtain ⟨heMem, heComb⟩ := he
  have heComb' : isCombining e = false := by
    cases h : isCombining e
    · rfl
    · rw [h] at heComb; cases heComb
  rcases mem_nfdStr heMem with ⟨x, hx, hex⟩
  rcases List.mem_map.mp hx with ⟨c, _, rfl⟩
  obtain ⟨hle, hne⟩ := nfd_lower_clean c e hex heComb'
  cases hcl : (isLetterJ e || isDigitJ e || isSpaceJ e) with
  | true =>
    have hpe : punctToSpace e = e := by simp [punctToSpace, hcl]
    rw [hpe]
    exact ⟨hle, hne, heComb', hpe⟩
  | false =>
    have hpe : punctToSpace e = ' ' := by simp [punctToSpace, hcl]
    rw [hpe]
    exact clean_space

theorem mem_collapseAux {d : Char} :
    ∀ (b : Bool) (s : List Char), d ∈ collapseAux b s → d = ' ' ∨ d ∈ s := by
  intro b s
  induction s generalizing b with
  | nil => intro h; simp [collapseAux] at h
  | cons c rest ih =>
    intro h
    rw [collapseAux] at h
    by_cases hc : isSpaceJ c = true
    · rw [if_pos hc] at h
      cases b with
      | true =>
        simp only [if_pos] at h
        rcases ih true h with h' | h'
        · exact Or.inl h'
        · exact Or.inr (List.mem_cons_of_mem _ h')
      | false =>
        simp only [Bool.false_eq_true, if_false] at h
        rcases List.mem_cons.mp h with h' | h'
        · exact Or.inl h'
        · rcases ih true h' with h'' | h''
          · exact Or.inl h''
          · exact Or.inr (List.mem_cons_of_mem _ h'')
    · rw [if_neg hc] at h
      rcases List.mem_cons.mp h with h' | h'
      · exact Or.inr (h' ▸ List.mem_cons_self _ _)
      · rcases ih false h' with h'' | h''
        · exact Or.inl h''
        · exact Or.inr (List.mem_cons_of_mem _ h'')

theorem collapseAux_space_sp {d : Char} :
    ∀ (b : Bool) (s : List Char), d ∈ collapseAux b s → isSpaceJ d = true → d = ' ' := by
  intro b s
  induction s generalizing b with
  | nil => intro h _; simp [collapseAux] at h
  | cons c rest ih =>
    intro h hd
    rw [collapseAux] at h
    by_cases hc : isSpaceJ c = true
    · rw [if_pos hc] at h
      cases b with
      | true => exact ih true (by simpa using h) hd
      | false =>
        simp only [Bool.false_eq_true, if_false] at h
        rcases List.mem_cons.mp h with h' | h'
        · exact h'
        · exact ih true h' hd
    · rw [if_neg hc] at h
      rcases List.mem_cons.mp h with h' | h'
      · subst h'; rw [hd] at hc; cases hc rfl
      · exact ih false h' hd

theorem collapseAux_true_noLead :
    ∀ s : List Char, noLeadSpace (collapseAux true s) = true := by
  intro s
  induction s with
  | nil => rfl
  | cons c rest ih =>
    rw [collapseAux]
    by_cases hc : isSpaceJ c = true
    · rw [if_pos hc]; simpa using ih
    · rw [if_neg hc]
      simp [noLeadSpace, Bool.eq_false_iff.mpr hc]

theorem noAdjB_cons (c : Char) (l : List Char) (h : noAdjB l = true)
    (hcl : isSpaceJ c = false ∨ noLeadSpace l = true) : noAdjB (c :: l) = true := by
  cases l with
  | nil => rfl
  | cons b l' =>
    rw [noAdjB, Bool.and_eq_true]
    refine ⟨?_, h⟩
    rcases hcl with h' | h'
    · simp [h']
    · rw [noLeadSpace] at h'
      simp only [Bool.not_eq_true'] at h'
      simp [h']

theorem collapseAux_noAdj (s : List Char) :
    ∀ b : Bool, noAdjB (collapseAux b s) = true := by
  induction s with
  | nil => intro b; rfl
  | cons c rest ih =>
    intro b
    rw [collapseAux]
    by_cases hc : isSpaceJ c = true
    · rw [if_pos hc]
      cases b with
      | true => simpa using ih true
      | false =>
        simp only [Bool.false_eq_true, if_false]
        exact noAdjB_cons _ _ (ih true) (Or.inr (collapseAux_true_noLead rest))
    · rw [if_neg hc]
      exact noAdjB_cons _ _ (ih false) (Or.inl (Bool.eq_false_iff.mpr hc))

theorem noAdjB_tail {c : Char} {l : List Char} (h : noAdjB (c :: l) = true) :
    noAdjB l = true := by
  cases l with
  | nil => rfl
  | cons b l' =>
    rw [noAdjB, Bool.and_eq_true] at h
    exact h.2

theorem noLead_dropWhile (s : List Char) :
    noLeadSpace (s.dropWhile (fun c => isSpaceJ c)) = true := by
  induction s with
  | nil => rfl
  | cons c rest ih =>
    rw [List.dropWhile_cons]
    by_cases hc : isSpaceJ c = true
    · simp only [hc, if_true]; exact ih
    · simp only [hc]
      simp [noLeadSpace, Bool.eq_false_iff.mpr hc]

theorem mem_dropWhile_sub {d : Char} {p : Char → Bool} :
    ∀ {s : List Char}, d ∈ s.dropWhile p → d ∈ s := by
  intro s
  induction s with
  | nil => intro h; simp at h
  | cons c rest ih =>
    intro h
    rw [List.dropWhile_cons] at h
    split at h
    · exact List.mem_cons_of_mem _ (ih h)
    · exact h

theorem noAdj_dropWhile {p : Char → Bool} :
    ∀ {s : List Char}, noAdjB s = true → noAdjB (s.dropWhile p) = true := by
  intro s
  induction s with
  | nil => intro h; exact h
  | cons c rest ih =>
    intro h
    rw [List.dropWhile_cons]
    split
    · exact ih (noAdjB_tail h)
    · exact h

theorem mem_dropTrailing {d : Char} :
    ∀ {s : List Char}, d ∈ dropTrailingWs s → d ∈ s := by
  intro s
  induction s with
  | nil => intro h; simp [dropTrailingWs] at h
  | cons c rest ih =>
    intro h
    rw [dropTrailingWs] at h
    cases hR : dropTrailingWs rest with
    | nil =>
      rw [hR] at h
      by_cases hc : isSpaceJ c = true
      · rw [if_pos hc] at h
        simp at h
      · rw [if_neg hc] at h
        simp only [List.mem_singleton] at h
        exact h ▸ List.mem_cons_self _ _
    | cons x r =>
      rw [hR] at h
      rcases List.mem_cons.mp h with h' | h'
      · exact h' ▸ List.mem_cons_self _ _
      · exact List.mem_cons_of_mem _ (ih (hR ▸ h'))

theorem dropTrailing_nil_allSpace :
    ∀ {s : List Char}, dropTrailingWs s = [] → ∀ c ∈ s, isSpaceJ c = true := by
  intro s
  induction s with
  | nil => intro _ c hc; simp at hc
  | cons a rest ih =>
    intro h c hc
    rw [dropTrailingWs] at h
    cases hR : dropTrailingWs rest with
    | nil =>
      rw [hR] at h
      by_cases ha : isSpaceJ a = true
      · rcases List.mem_cons.mp hc with h' | h'
        · exact h' ▸ ha
        · exact ih hR c h'
      · rw [if_neg ha] at h
        cases h
    | cons x r => rw [hR] at h; cases h

theorem dropTrailing_decomp :
    ∀ s : List Char, ∃ ws : List Char,
      s = dropTrailingWs s ++ ws ∧ ∀ c ∈ ws, isSpaceJ c = true := by
  intro s
  induction s with
  | nil => exact ⟨[], rfl, by intro c hc; simp at hc⟩
  | cons a rest ih =>
    rcases ih with ⟨ws, hws, hsp⟩
    rw [dropTrailingWs]
    cases hR : dropTrailingWs rest with
    | nil =>
      by_cases ha : isSpaceJ a = true
      · refine ⟨a :: rest, ?_, ?_⟩
        · rw [if_pos ha]; rfl
        · intro c hc
          rcases List.mem_cons.mp hc with h' | h'
          · exact h' ▸ ha
          · exact dropTrailing_nil_allSpace hR c h'
      · refine ⟨rest, ?_, ?_⟩
        · rw [if_neg ha]
          simp only [List.cons_append, List.nil_append]
        · intro c hc; exact dropTrailing_nil_allSpace hR c hc
    | cons x r =>
      refine ⟨ws, ?_, hsp⟩
      rw [hR] at hws
      rw [List.cons_append]
      exact congrArg (List.cons a) hws

theorem noTrail_dropTrailing : ∀ s : List Char, noTrailSpaceB (dropTrailingWs s) = true := by
  intro s
  induction s with
  | nil => rfl
  | cons a rest ih =>
    rw [dropTrailingWs]
    cases hR : dropTrailingWs rest with
    | nil =>
      by_cases ha : isSpaceJ a = true
      · rw [if_pos ha]; rfl
      · rw [if_neg ha]
        simp [noTrailSpaceB, Bool.eq_false_iff.mpr ha]
    | cons x r =>
      rw [hR] at ih
      simpa [noTrailSpaceB] using ih

theorem noLead_dropTrailing {s : List Char} (h : noLeadSpace s = true) :
    noLeadSpace (dropTrailingWs s) = true := by
  cases s with
  | nil => rfl
  | cons a rest =>
    rw [dropTrailingWs]
    cases dropTrailingWs rest with
    | nil =>
      by_cases ha : isSpaceJ a = true
      · rw [if_pos ha]; rfl
      · rw [if_neg ha]
        simpa [noLeadSpace] using h
    | cons x r => simpa [noLeadSpace] using h

theorem noAdjB_append_left :
    ∀ (xs ys : List Char), noAdjB (xs ++ ys) = true → noAdjB xs = true := by
  intro xs
  induction xs with
  | nil => intro ys _; rfl
  | cons x xs' ih =>
    intro ys h
    cases xs' with
    | nil => rfl
    | cons y xs'' =>
      simp only [List.cons_append] at h
      rw [noAdjB, Bool.and_eq_true] at h
      rw [noAdjB, Bool.and_eq_true]
      exact ⟨h.1, ih ys h.2⟩

theorem noAdj_dropTrailing {s : List Char} (h : noAdjB s = true) :
    noAdjB (dropTrailingWs s) = true := by
  rcases dropTrailing_decomp s with ⟨ws, hws, _⟩
  rw [hws] at h
  exact noAdjB_append_left _ _ h

theorem map_id_of {α : Type} {f : α → α} :
    ∀ l : List α, (∀ c ∈ l, f c = c) → l.map f = l := by
  intro l
  induction l with
  | nil => intro _; rfl
  | cons c rest ih =>
    intro h
    rw [List.map_cons, h c (List.mem_cons_self _ _),
      ih (fun x hx => h x (List.mem_cons_of_mem _ hx))]

theorem nfdStr_id_of : ∀ l : List Char, (∀ c ∈ l, nfdC c = [c]) → nfdStr l = l := by
  intro l
  induction l with
  | nil => intro _; rfl
  | cons c rest ih =>
    intro h
    rw [nfdStr, h c (List.mem_cons_self _ _),
      ih (fun x hx => h x (List.mem_cons_of_mem _ hx))]
    rfl

theorem filter_id_of {α : Type} {p : α → Bool} :
    ∀ l : List α, (∀ c ∈ l, p c = true) → l.filter p = l := by
  intro l
  induction l with
  | nil => intro _; rfl
  | cons c rest ih =>
    intro h
    rw [List.filter_cons, if_pos (h c (List.mem_cons_self _ _)),
      ih (fun x hx => h x (List.mem_cons_of_mem _ hx))]

theorem noAdjB_space_head {c : Char} {rest : List Char}
    (h : noAdjB (c :: rest) = true) (hc : isSpaceJ c = true) :
    noLeadSpace rest = true := by
  cases rest with
  | nil => rfl
  | cons b l' =>
    rw [noAdjB, Bool.and_eq_true] at h
    have := h.1
    rw [hc] at this
    simp only [Bool.true_and, Bool.not_eq_true', noLeadSpace] at this ⊢
    simp [this]

theorem collapse_fix :
    ∀ s : List Char, (∀ c ∈ s, isSpaceJ c = true → c = ' ') → noAdjB s = true →
      collapseAux false s = s ∧ (noLeadSpace s = true → collapseAux true s = s) := by
  intro s
  induction s with
  | nil => intro _ _; exact ⟨rfl, fun _ => rfl⟩
  | cons c rest ih =>
    intro hsp hadj
    have hspRest : ∀ c ∈ rest, isSpaceJ c = true → c = ' ' :=
      fun x hx => hsp x (List.mem_cons_of_mem _ hx)
    have hadjRest : noAdjB rest = true := noAdjB_tail hadj
    obtain ⟨ihF, ihT⟩ := ih hspRest hadjRest
    constructor
    · rw [collapseAux]
      by_cases hc : isSpaceJ c = true
      · rw [if_pos hc]
        simp only [Bool.false_eq_true, if_false]
        rw [ihT (noAdjB_space_head hadj hc), hsp c (List.mem_cons_self _ _) hc]
      · rw [if_neg hc, ihF]
    · intro hlead
      rw [noLeadSpace] at hlead
      simp only [Bool.not_eq_true'] at hlead
      rw [collapseAux, if_neg (by simp [hlead]), ihF]

theorem dropWhile_fix {s : List Char} (h : noLeadSpace s = true) :
    s.dropWhile (fun c => isSpaceJ c) = s := by
  cases s with
  | nil => rfl
  | cons c rest =>
    rw [noLeadSpace] at h
    simp only [Bool.not_eq_true'] at h
    rw [List.dropWhile_cons, if_neg (by simp [h])]

theorem dropTrailing_fix :
    ∀ {s : List Char}, noTrailSpaceB s = true → dropTrailingWs s = s := by
  intro s
  induction s with
  | nil => intro _; rfl
  | cons c rest ih =>
    intro h
    rw [dropTrailingWs]
    cases rest with
    | nil =>
      rw [noTrailSpaceB] at h
      simp only [List.isEmpty_nil, if_true, Bool.not_eq_true'] at h
      simp [dropTrailingWs, h]
    | cons x r =>
      rw [noTrailSpaceB] at h
      simp only [List.isEmpty_cons, Bool.false_eq_true, if_false] at h
      rw [ih h]

theorem normalizeKey_flatStr (s : List Char) : FlatStr (normalizeKey s) := by
  have hmemTrim : ∀ d ∈ normalizeKey s,
      d ∈ collapseAux false ((stripMarks (nfdStr (s.map lowerC))).map punctToSpace) := by
    intro d hd
    rw [normalizeKey, trimWs] at hd
    exact mem_dropWhile_sub (mem_dropTrailing hd)
  refine ⟨?_, ?_, ?_, ?_, ?_⟩
  · intro c hc
    rcases mem_collapseAux false _ (hmemTrim c hc) with h | h
    · exact h ▸ clean_space
    · exact stage_clean s c h
  · intro c hc hsp
    exact collapseAux_space_sp false _ (hmemTrim c hc) hsp
  · rw [normalizeKey, trimWs]
    exact noAdj_dropTrailing (noAdj_dropWhile (collapseAux_noAdj _ false))
  · rw [normalizeKey, trimWs]
    exact noLead_dropTrailing (noLead_dropWhile _)
  · rw [normalizeKey, trimWs]
    exact noTrail_dropTrailing _

theorem normalizeKey_fix {t : List Char} (h : FlatStr t) : normalizeKey t = t := by
  obtain ⟨hClean, hSp, hAdj, hLead, hTrail⟩ := h
  rw [normalizeKey]
  rw [map_id_of t (fun c hc => (hClean c hc).1)]
  rw [nfdStr_id_of t (fun c hc => (hClean c hc).2.1)]
  rw [stripMarks, filter_id_of t (fun c hc => by
    have := (hClean c hc).2.2.1
    simp [this])]
  rw [map_id_of t (fun c hc => (hClean c hc).2.2.2)]
  rw [collapseWs, (collapse_fix t hSp hAdj).1, trimWs, dropWhile_fix hLead,
    dropTrailing_fix hTrail]

/-- C7: `normalizeKey` is a pure idempotent function — for every string
`x`, `normalizeKey (normalizeKey x) = normalizeKey x` — and it is case-
and accent-insensitive: `normalizeKey "São Paulo"` equals
`normalizeKey "sao  paulo"`. -/
theorem normalizeKey_idempotent_insensitive :
    (∀ s : List Char, normalizeKey (normalizeKey s) = normalizeKey s) ∧
      normalizeKey "São Paulo".data = normalizeKey "sao  paulo".data := by
  constructor
  · intro s
    exact normalizeKey_fix (normalizeKey_flatStr s)
  · decide

/-! ## Budget parsing (`parseBudgetBR`, claim C8)

JS numbers are `ℚ` (all values reached here are exactly representable);
`Option ℚ` stands for a number-or-null, with `none` for `null`/`NaN`/
`Infinity`.  `parseFloat` is modelled as the JS prefix parser —
optional sign, digits, optional fraction, optional exponent — split
into a syntactic scan (`parseFloatParts`) and its numeric value
(`ratOfParts`); `NaN` (no digits) is `none`. -/

def digitsToNat (ds : List Char) : Nat :=
  ds.foldl (fun acc c => acc * 10 + (c.toNat - '0'.toNat)) 0

/-- Exponent suffix of a JS float literal (after the `e`/`E`): an
optional sign and digits; without digits the exponent part is not part
of the parsed prefix, contributing exponent 0. -/
def parseExpPart (r : List Char) : Int :=
  match r with
  | '-' :: d =>
    let ds := d.takeWhile isDigitJ
    if ds.isEmpty then 0 else -(digitsToNat ds : Int)
  | '+' :: d =>
    let ds := d.takeWhile isDigitJ
    if ds.isEmpty then 0 else (digitsToNat ds : Int)
  | d =>
    let ds := d.takeWhile isDigitJ
    if ds.isEmpty then 0 else (digitsToNat ds : Int)

/-- Components of a parsed JS float: sign, integer digits, fractional
digits (value and count), exponent. -/
structure FloatParts where
  neg : Bool
  intN : Nat
  fracN : Nat
  fracLen : Nat
  expo : Int
deriving DecidableEq

/-- Syntactic part of `parseFloat`: scan the longest numeric prefix
after leading whitespace; `none` when no digit is found (JS `NaN`). -/
def parseFloatParts (s : List Char) : Option FloatParts :=
  let s1 := s.dropWhile (fun c => isSpaceJ c)
  let neg : Bool := match s1 with
    | '-' :: _ => true
    | _ => false
  let s2 := match s1 with
    | '-' :: r => r
    | '+' :: r => r
    | r => r
  let intDigits := s2.takeWhile isDigitJ
  let s3 := s2.dropWhile isDigitJ
  let fracDigits := match s3 with
    | '.' :: r => r.takeWhile isDigitJ
    | _ => []
  let s4 := match s3 with
    | '.' :: r => r.dropWhile isDigitJ
    | r => r
  if intDigits.isEmpty && fracDigits.isEmpty then none
  else
    let expo : Int := match s4 with
      | 'e' :: r => parseExpPart r
      | 'E' :: r => parseExpPart r
      | _ => 0
    some ⟨neg, digitsToNat intDigits, digitsToNat fracDigits, fracDigits.length, expo⟩

/-- Numeric value of a parsed float. -/
def ratOfParts (p : FloatParts) : ℚ :=
  (if p.neg then -1 else 1) *
    ((p.intN : ℚ) + (p.fracN : ℚ) / (10 : ℚ) ^ p.fracLen) * (10 : ℚ) ^ p.expo

/-- Model of JS `parseFloat`; `none` models `NaN`. -/
def parseFloatQ (s : List Char) : Option ℚ := (parseFloatParts s).map ratOfParts

/-- Strip of the currency marker: `replace` of a leading `r$` (the
string is already lowercased and whitespace-free at this point). -/
def stripCurrencyMarker (s : List Char) : List Char :=
  match s with
  | 'r' :: '$' :: r => r.dropWhile (fun c => isSpaceJ c)
  | _ => s

def endsWithL (s suf : List Char) : Bool :=
  decide (suf.length ≤ s.length) && decide (s.drop (s.length - suf.length) = suf)

/-- Model of `String.prototype.replace` with a single target character:
only the first occurrence is replaced. -/
def replaceFirst (tgt repl : Char) : List Char → List Char
  | [] => []
  | c :: r => if c = tgt then repl :: r else c :: replaceFirst tgt repl r

/-- The middle of `parseBudgetBR` (after trim/lowercase/empty-check):
drop whitespace, strip the `r$` marker, detect and strip a trailing
`mil`, drop thousands separators `.`, turn the first decimal `,` into
`.`.  Returns the `mil` flag and the numeric string handed to
`parseFloat`. -/
def budgetDigits (s : List Char) : Bool × List Char :=
  let s1 := s.filter (fun c => !isSpaceJ c)
  let s2 := stripCurrencyMarker s1
  let mil := endsWithL s2 ['m', 'i', 'l']
  let s3 := if mil then s2.take (s2.length - 3) else s2
  let s4 := s3.filter (fun c => !(c == '.'))
  (mil, replaceFirst ',' '.' s4)

/-- The argument of `parseBudgetBR`: `undefined`, `null`, a JS number
(`none` inside `num` models a non-finite number) or a string. -/
inductive BudgetInput where
  | undef
  | nullV
  | num (v : Option ℚ)
  | str (s : List Char)

/-- String case of `parseBudgetBR` (the source's `t` is the trimmed,
lowercased input). -/
def parseBudgetStr (s : List Char) : Option ℚ :=
  if ((trimWs s).map lowerC).isEmpty then none
  else
    match parseFloatQ (budgetDigits ((trimWs s).map lowerC)).2 with
    | none => none
    | some v => some (if (budgetDigits ((trimWs s).map lowerC)).1 then v * 1000 else v)

/-- Function `parseBudgetBR` from `api/roteiro.js`. -/
def parseBudgetBR : BudgetInput → Option ℚ
  | .undef => none
  | .nullV => none
  | .num none => none
  | .num (some v) => some v
  | .str s => parseBudgetStr s

theorem parseBudget_R5500 : parseBudgetBR (.str "R$ 5.500".data) = some 5500 := by
  have h1 : budgetDigits ((trimWs "R$ 5.500".data).map lowerC) =
      (false, ['5', '5', '0', '0']) := by decide
  have hparts : parseFloatParts ['5', '5', '0', '0'] = some ⟨false, 5500, 0, 0, 0⟩ := by
    decide
  have hval : ratOfParts ⟨false, 5500, 0, 0, 0⟩ = 5500 := by
    rw [ratOfParts]; norm_num
  show parseBudgetStr "R$ 5.500".data = some 5500
  rw [parseBudgetStr, if_neg (by decide)]
  simp only [h1, parseFloatQ, hparts, Option.map_some', Bool.false_eq_true, if_false]
  rw [hval]

theorem parseBudget_55mil : parseBudgetBR (.str "5,5 mil".data) = some 5500 := by
  have h1 : budgetDigits ((trimWs "5,5 mil".data).map lowerC) =
      (true, ['5', '.', '5']) := by decide
  have hparts : parseFloatParts ['5', '.', '5'] = some ⟨false, 5, 5, 1, 0⟩ := by decide
  have hval : ratOfParts ⟨false, 5, 5, 1, 0⟩ = 11 / 2 := by
    rw [ratOfParts]; norm_num
  show parseBudgetStr "5,5 mil".data = some 5500
  rw [parseBudgetStr, if_neg (by decide)]
  simp only [h1, parseFloatQ, hparts, Option.map_some', if_true]
  rw [hval]
  norm_num

/-- C8: `parseBudgetBR` maps `"R$ 5.500"` and `"5,5 mil"` to `5500`
(period = thousands separator, comma = decimal separator, trailing
`mil` = ×1000), returns a finite numeric input unchanged, and returns
`null` — it is a total function, so it never throws — on `null`,
`undefined`, non-finite numbers, the empty string and unparseable
strings (strings whose transformed digit string has no parseable
float prefix). -/
theorem parseBudgetBR_spec :
    parseBudgetBR (.str "R$ 5.500".data) = some 5500 ∧
    parseBudgetBR (.str "5,5 mil".data) = some 5500 ∧
    (∀ q : ℚ, parseBudgetBR (.num (some q)) = some q) ∧
    parseBudgetBR .nullV = none ∧
    parseBudgetBR .undef = none ∧
    parseBudgetBR (.num none) = none ∧
    parseBudgetBR (.str "".data) = none ∧
    (∀ s : List Char,
      parseFloatQ (budgetDigits ((trimWs s).map lowerC)).2 = none →
      parseBudgetBR (.str s) = none) := by
  refine ⟨parseBudget_R5500, parseBudget_55mil, fun q => rfl, rfl, rfl, rfl, by decide, ?_⟩
  intro s h
  show parseBudgetStr s = none
  rw [parseBudgetStr]
  split
  · rfl
  · rw [h]

/-- Witness for C8: the string `"abc"` is unparseable, and
`parseBudgetBR` returns `null` on it. -/
theorem parseBudgetBR_spec_witness :
    parseFloatQ (budgetDigits ((trimWs "abc".data).map lowerC)).2 = none ∧
      parseBudgetBR (.str "abc".data) = none :=
  ⟨by decide, parseBudgetBR_spec.2.2.2.2.2.2.2 "abc".data (by decide)⟩

/-! ## Budget reconciliation (claim C2)

Lines 676–694 of `api/roteiro.js`: the ×10 correction heuristic applied
when both a total and a per-person budget are (truthily) present. -/

/-- Function `almostEqual` from `api/roteiro.js` (tolerance fixed at its
default 0.02; rationals are always finite, so the `isFinite` guards of
the source always pass here). -/
def almostEqual (a b : ℚ) : Bool :=
  if a = 0 ∧ b = 0 then true
  else decide (|a - b| / max |a| |b| ≤ 2 / 100)

structure BudgetSpec where
  total : Option ℚ
  perPerson : Option ℚ
deriving DecidableEq

def truthyQ : Option ℚ → Bool
  | some q => decide (q ≠ 0)
  | none => false

/-- The budget-reconciliation block of the handler (`orcamento`,
`orcamento_por_pessoa`, `pessoas` → `orcTotal`, `orcPerPerson`),
with JS truthiness of the parsed numbers made explicit. -/
def reconcileBudget (orcIn ppIn : Option ℚ) (pessoas : ℚ) : BudgetSpec :=
  if truthyQ orcIn && truthyQ ppIn then
    let o := orcIn.getD 0
    let pp := ppIn.getD 0
    let fromPP := pp * max 1 pessoas
    let oFix := if almostEqual o (fromPP * 10) then fromPP else o
    let ppFix :=
      if almostEqual o (fromPP * 10) then pp
      else if almostEqual fromPP (o * 10) then o / max 1 pessoas
      else pp
    ⟨some oFix, if oFix ≠ 0 ∧ pessoas ≠ 0 then some (oFix / pessoas) else some ppFix⟩
  else if truthyQ orcIn then
    ⟨orcIn, if pessoas ≠ 0 then some (orcIn.getD 0 / pessoas) else none⟩
  else if truthyQ ppIn then
    ⟨if pessoas ≠ 0 then some (ppIn.getD 0 * pessoas) else none, ppIn⟩
  else ⟨none, none⟩

theorem reconcile_concrete :
    reconcileBudget (some 110000) (some 1100) 10 = ⟨some 11000, some 1100⟩ := by
  have hmax : max (1 : ℚ) 10 = 10 := max_eq_right (by norm_num)
  have hfrom10 : (1100 : ℚ) * max 1 10 * 10 = 110000 := by rw [hmax]; norm_num
  have hae : almostEqual 110000 110000 = true := by
    rw [almostEqual, if_neg (by norm_num), decide_eq_true_eq, sub_self, abs_zero, zero_div]
    norm_num
  rw [reconcileBudget, if_pos (by norm_num [truthyQ])]
  simp only [Option.getD_some]
  rw [hfrom10, hae]
  norm_num [hmax]

/-- C2: with both budget values present, if `total` matches
`perPerson × max(1, partySize)` scaled by 10 within the 2% tolerance,
`total` is replaced by `perPerson × max(1, partySize)`; in the
symmetric case `perPerson` is adjusted instead (to
`total / max(1, partySize)`, `total` unchanged); and reconciling
`total = 110000`, `perPerson = 1100`, `partySize = 10` yields
`total = 11000`, `perPerson = 1100`. -/
theorem reconcileBudget_spec :
    (∀ o pp pes : ℚ, o ≠ 0 → pp ≠ 0 →
      (almostEqual o (pp * max 1 pes * 10) = true →
        (reconcileBudget (some o) (some pp) pes).total = some (pp * max 1 pes)) ∧
      (almostEqual o (pp * max 1 pes * 10) = false →
        almostEqual (pp * max 1 pes) (o * 10) = true →
        (reconcileBudget (some o) (some pp) pes).total = some o ∧
          (1 ≤ pes →
            (reconcileBudget (some o) (some pp) pes).perPerson = some (o / max 1 pes)))) ∧
    reconcileBudget (some 110000) (some 1100) 10 = ⟨some 11000, some 1100⟩ := by
  refine ⟨?_, reconcile_concrete⟩
  intro o pp pes ho hpp
  have htr : (truthyQ (some o) && truthyQ (some pp)) = true := by
    simp [truthyQ, ho, hpp]
  constructor
  · intro hae
    rw [reconcileBudget, if_pos htr]
    simp only [Option.getD_some, hae, if_true]
  · intro hae1 hae2
    rw [reconcileBudget, if_pos htr]
    simp only [Option.getD_some, hae1, Bool.false_eq_true, if_false, hae2, if_true]
    refine ⟨by trivial, ?_⟩
    intro hpes
    have hmax : max 1 pes = pes := max_eq_right hpes
    simp only [hmax]
    split
    · rfl
    · rfl

/-- Witness for C2: the claim's own concrete instance discharges the
hypotheses of the general statement. -/
theorem reconcileBudget_spec_witness :
    (110000 : ℚ) ≠ 0 ∧ (1100 : ℚ) ≠ 0 ∧
      almostEqual 110000 (1100 * max 1 10 * 10) = true ∧
      (reconcileBudget (some 110000) (some 1100) 10).total = some (1100 * max 1 10) :=
  ⟨by norm_num, by norm_num,
    by
      rw [show (1100 : ℚ) * max 1 10 * 10 = 110000 from by
          rw [max_eq_right (by norm_num : (1 : ℚ) ≤ 10)]; norm_num,
        almostEqual, if_neg (by norm_num), decide_eq_true_eq, sub_self, abs_zero, zero_div]
      norm_num,
    (reconcileBudget_spec.1 110000 1100 10 (by norm_num) (by norm_num)).1
      (by
        rw [show (1100 : ℚ) * max 1 10 * 10 = 110000 from by
            rw [max_eq_right (by norm_num : (1 : ℚ) ≤ 10)]; norm_num,
          almostEqual, if_neg (by norm_num), decide_eq_true_eq, sub_self, abs_zero, zero_div]
        norm_num)⟩

/-! ## IATA resolution (claims C4 and C10)

Codes are Lean `String`s.  The static tables are transcribed from
`api/roteiro.js` (`AIRPORT_TO_CITY`, `IATA_HINTS`); the single
`IATA_HINTS` alias containing an apostrophe is omitted, since lookup
keys are `normalizeKey` outputs, which never contain one, so that entry
is unreachable in the source as well.  The autocomplete service of
resolution step 3 is an oracle parameter; a network failure there is
caught by the source and behaves like an empty candidate list, which is
how it is modelled. -/

def findValS {α : Type} : List (String × α) → String → Option α
  | [], _ => none
  | (k, v) :: rest, c => if c = k then some v else findValS rest c

theorem findValS_mem {α : Type} {ps : List (String × α)} {c : String} {v : α}
    (h : findValS ps c = some v) : (c, v) ∈ ps := by
  induction ps with
  | nil => simp [findValS] at h
  | cons p rest ih =>
    rw [findValS] at h
    split at h
    · rename_i heq
      cases h
      cases p
      simp_all
    · exact List.mem_cons_of_mem _ (ih h)

def toUpperS (s : String) : String := String.mk (s.data.map upperC)

/-- Table `AIRPORT_TO_CITY` from `api/roteiro.js`: airport code to
metro-area aggregator code. -/
def AIRPORT_TO_CITY : List (String × String) :=
  [
   ("GRU", "SAO"), ("CGH", "SAO"), ("VCP", "SAO"), ("GIG", "RIO"),
   ("SDU", "RIO"), ("CNF", "BHZ"), ("PLU", "BHZ"), ("BSB", "BSB"),
   ("SSA", "SSA"), ("REC", "REC"), ("FOR", "FOR"), ("NAT", "NAT"),
   ("JPA", "JPA"), ("MCZ", "MCZ"), ("AJU", "AJU"), ("BEL", "BEL"),
   ("MAO", "MAO"), ("MCP", "MCP"), ("BVB", "BVB"), ("PMW", "PMW"),
   ("CGB", "CGB"), ("CGR", "CGR"), ("GYN", "GYN"), ("POA", "POA"),
   ("CWB", "CWB"), ("FLN", "FLN"), ("NVT", "NVT"), ("IGU", "IGU"),
   ("IOS", "IOS"), ("BPS", "BPS"), ("PHB", "PHB"), ("STM", "STM"),
   ("FEN", "FEN"), ("SLZ", "SLZ"), ("THE", "THE"), ("VIX", "VIX"),
   ("CXJ", "CXJ"), ("JFK", "NYC"), ("LGA", "NYC"), ("EWR", "NYC"),
   ("MCO", "ORL"), ("SFB", "ORL"), ("ORL", "ORL"), ("FLL", "MIA"),
   ("MIA", "MIA"), ("PBI", "MIA"), ("IAD", "WAS"), ("DCA", "WAS"),
   ("BWI", "WAS"), ("ORD", "CHI"), ("MDW", "CHI"), ("LAX", "LAX"),
   ("BUR", "LAX"), ("LGB", "LAX"), ("SNA", "LAX"), ("ONT", "LAX"),
   ("SFO", "SFO"), ("OAK", "SFO"), ("SJC", "SFO"), ("SEA", "SEA"),
   ("PDX", "PDX"), ("SAN", "SAN"), ("LAS", "LAS"), ("ATL", "ATL"),
   ("DFW", "DFW"), ("DAL", "DFW"), ("IAH", "HOU"), ("HOU", "HOU"),
   ("BOS", "BOS"), ("HNL", "HNL"), ("YYZ", "YTO"), ("YTZ", "YTO"),
   ("YHM", "YTO"), ("YUL", "YMQ"), ("YHU", "YMQ"), ("YVR", "YVR"),
   ("YQB", "YQB"), ("YYC", "YYC"), ("YEG", "YEG"), ("MEX", "MEX"),
   ("NLU", "MEX"), ("TLC", "MEX"), ("CUN", "CUN"), ("SJD", "SJD"),
   ("PVR", "PVR"), ("GDL", "GDL"), ("PUJ", "PUJ"), ("SDQ", "SDQ"),
   ("POP", "POP"), ("STI", "STI"), ("HAV", "HAV"), ("LHR", "LON"),
   ("LGW", "LON"), ("LCY", "LON"), ("LTN", "LON"), ("STN", "LON"),
   ("SEN", "LON"), ("CDG", "PAR"), ("ORY", "PAR"), ("BVA", "PAR"),
   ("FCO", "ROM"), ("CIA", "ROM"), ("MXP", "MIL"), ("LIN", "MIL"),
   ("BGY", "MIL"), ("MAD", "MAD"), ("BCN", "BCN"), ("VLC", "VLC"),
   ("SVQ", "SVQ"), ("AGP", "AGP"), ("PMI", "PMI"), ("IBZ", "IBZ"),
   ("TFS", "TCI"), ("TFN", "TCI"), ("LPA", "LPA"), ("LIS", "LIS"),
   ("OPO", "OPO"), ("FAO", "FAO"), ("FNC", "FNC"), ("PDL", "PDL"),
   ("TER", "TER"), ("AMS", "AMS"), ("BRU", "BRU"), ("CRL", "BRU"),
   ("FRA", "FRA"), ("MUC", "MUC"), ("BER", "BER"), ("TXL", "BER"),
   ("SXF", "BER"), ("HAM", "HAM"), ("DUS", "DUS"), ("CGN", "CGN"),
   ("CPH", "CPH"), ("ARN", "STO"), ("BMA", "STO"), ("NYO", "STO"),
   ("VST", "STO"), ("OSL", "OSL"), ("HEL", "HEL"), ("PRG", "PRG"),
   ("BUD", "BUD"), ("WAW", "WAW"), ("KRK", "KRK"), ("VIE", "VIE"),
   ("ZRH", "ZRH"), ("GVA", "GVA"), ("BSL", "BSL"), ("ATH", "ATH"),
   ("JTR", "JTR"), ("JMK", "JMK"), ("DUB", "DUB"), ("SNN", "SNN"),
   ("ORK", "ORK"), ("CMN", "CMN"), ("RAK", "RAK"), ("AGA", "AGA"),
   ("CAI", "CAI"), ("HRG", "HRG"), ("SSH", "SSH"), ("JNB", "JNB"),
   ("CPT", "CPT"), ("NBO", "NBO"), ("IST", "IST"), ("SAW", "IST"),
   ("DXB", "DXB"), ("DWC", "DXB"), ("AUH", "AUH"), ("DOH", "DOH"),
   ("TLV", "TLV"), ("HND", "TYO"), ("NRT", "TYO"), ("KIX", "OSA"),
   ("ITM", "OSA"), ("UKB", "OSA"), ("ICN", "SEL"), ("GMP", "SEL"),
   ("PEK", "BJS"), ("PKX", "BJS"), ("PVG", "SHA"), ("SHA", "SHA"),
   ("HKG", "HKG"), ("MFM", "MFM"), ("SZX", "SZX"), ("BKK", "BKK"),
   ("DMK", "BKK"), ("HKT", "HKT"), ("CNX", "CNX"), ("HAN", "HAN"),
   ("SGN", "SGN"), ("KUL", "KUL"), ("SIN", "SIN"), ("CGK", "JKT"),
   ("HLP", "JKT"), ("DPS", "DPS"), ("MNL", "MNL"), ("CEB", "CEB"),
   ("DEL", "DEL"), ("BOM", "BOM"), ("BLR", "BLR"), ("MAA", "MAA"),
   ("HYD", "HYD"), ("GOI", "GOI"), ("SYD", "SYD"), ("MEL", "MEL"),
   ("BNE", "BNE"), ("PER", "PER"), ("ADL", "ADL"), ("AKL", "AKL"),
   ("WLG", "WLG"), ("CHC", "CHC"), ("ZQN", "ZQN")]

/-- Table `IATA_HINTS` from `api/roteiro.js`: normalized place aliases
to IATA codes. -/
def IATA_HINTS : List (String × String) :=
  [
   ("sao paulo", "SAO"), ("sampa", "SAO"), ("sp", "SAO"),
   ("rio de janeiro", "RIO"), ("rio", "RIO"), ("brasilia", "BSB"),
   ("belo horizonte", "BHZ"), ("salvador", "SSA"), ("recife", "REC"),
   ("fortaleza", "FOR"), ("maceio", "MCZ"), ("natal", "NAT"),
   ("joao pessoa", "JPA"), ("aracaju", "AJU"), ("vitoria", "VIX"),
   ("belem", "BEL"), ("manaus", "MAO"), ("boa vista", "BVB"),
   ("macapa", "MCP"), ("palmas", "PMW"), ("cuiaba", "CGB"),
   ("campo grande", "CGR"), ("goiania", "GYN"), ("porto alegre", "POA"),
   ("curitiba", "CWB"), ("florianopolis", "FLN"), ("campinas", "VCP"),
   ("viracopos", "VCP"), ("caxias do sul", "CXJ"), ("foz do iguacu", "IGU"),
   ("foz do iguaçu", "IGU"), ("maragogi", "MCZ"), ("maragoji", "MCZ"),
   ("maragogi al", "MCZ"), ("maragogi brasil", "MCZ"), ("porto de galinhas", "REC"),
   ("morro de sao paulo", "SSA"), ("morro de são paulo", "SSA"), ("boipeba", "SSA"),
   ("chapada diamantina", "SSA"), ("lencois bahia", "SSA"), ("lençóis bahia", "SSA"),
   ("barreirinhas", "SLZ"), ("lencois maranhenses", "SLZ"), ("lençóis maranhenses", "SLZ"),
   ("jalapao", "PMW"), ("gramado", "POA"), ("canela", "POA"),
   ("serra gaucha", "POA"), ("bento goncalves", "POA"), ("bento gonçalves", "POA"),
   ("arraial do cabo", "RIO"), ("buzios", "RIO"), ("armacao dos buzios", "RIO"),
   ("armação dos búzios", "RIO"), ("angra dos reis", "RIO"), ("ilha grande", "RIO"),
   ("paraty", "RIO"), ("balneario camboriu", "NVT"), ("balneário camboriú", "NVT"),
   ("bombinhas", "NVT"), ("penha", "NVT"), ("beto carreiro", "NVT"),
   ("beto carrero", "NVT"), ("beto carreiro world", "NVT"), ("garopaba", "FLN"),
   ("praia do rosa", "FLN"), ("imbituba", "FLN"), ("ilha do mel", "CWB"),
   ("ilhabela", "SAO"), ("ubatuba", "SAO"), ("maresias", "SAO"),
   ("itacare", "IOS"), ("itacaré", "IOS"), ("marau", "IOS"),
   ("peninsula de marau", "IOS"), ("península de maraú", "IOS"), ("barra grande bahia", "IOS"),
   ("trancoso", "BPS"), ("caraiva", "BPS"), ("caraíva", "BPS"),
   ("arraial d ajuda", "BPS"), ("arraial dajuda", "BPS"), ("praia do forte", "SSA"),
   ("pipa", "NAT"), ("jericoacoara", "FOR"), ("jijoca", "FOR"),
   ("alter do chao", "STM"), ("alter do chão", "STM"), ("chapada dos veadeiros", "BSB"),
   ("alto paraiso de goias", "BSB"), ("alto paraíso de goiás", "BSB"), ("chapada dos guimaraes", "CGB"),
   ("chapada dos guimarães", "CGB"), ("pantanal", "CGR"), ("bonito ms", "CGR"),
   ("fernando de noronha", "FEN"), ("barra grande piaui", "PHB"), ("barra grande pi", "PHB"),
   ("nova york", "NYC"), ("new york", "NYC"), ("orlando", "ORL"),
   ("miami", "MIA"), ("fort lauderdale", "MIA"), ("boston", "BOS"),
   ("chicago", "CHI"), ("washington", "WAS"), ("washington dc", "WAS"),
   ("dc", "WAS"), ("los angeles", "LAX"), ("san francisco", "SFO"),
   ("las vegas", "LAS"), ("seattle", "SEA"), ("san diego", "SAN"),
   ("atlanta", "ATL"), ("houston", "HOU"), ("dallas", "DFW"),
   ("honolulu", "HNL"), ("cidade do mexico", "MEX"), ("cdmx", "MEX"),
   ("mexico city", "MEX"), ("cancun", "CUN"), ("riviera maya", "CUN"),
   ("playa del carmen", "CUN"), ("tulum", "CUN"), ("los cabos", "SJD"),
   ("puerto vallarta", "PVR"), ("guadalajara", "GDL"), ("toronto", "YTO"),
   ("montreal", "YMQ"), ("vancouver", "YVR"), ("quebec", "YQB"),
   ("lima", "LIM"), ("cusco", "CUZ"), ("arequipa", "AQP"),
   ("machu picchu", "CUZ"), ("bogota", "BOG"), ("medellin", "MDE"),
   ("cartagena", "CTG"), ("san andres", "ADZ"), ("san andrés", "ADZ"),
   ("quito", "UIO"), ("guayaquil", "GYE"), ("la paz bolivia", "LPB"),
   ("santa cruz bolivia", "VVI"), ("uyuni", "UYU"), ("buenos aires", "BUE"),
   ("bariloche", "BRC"), ("mendoza", "MDZ"), ("ushuaia", "USH"),
   ("el calafate", "FTE"), ("santiago", "SCL"), ("montevideo", "MVD"),
   ("punta del este", "PDP"), ("havana", "HAV"), ("punta cana", "PUJ"),
   ("republica dominicana", "PUJ"), ("lisboa", "LIS"), ("porto", "OPO"),
   ("faro", "FAO"), ("funchal", "FNC"), ("madeira", "FNC"),
   ("madrid", "MAD"), ("barcelona", "BCN"), ("valencia", "VLC"),
   ("sevilla", "SVQ"), ("sevilha", "SVQ"), ("malaga", "AGP"),
   ("mallorca", "PMI"), ("palma de mallorca", "PMI"), ("ibiza", "IBZ"),
   ("tenerife", "TCI"), ("gran canaria", "LPA"), ("londres", "LON"),
   ("manchester", "MAN"), ("edimburgo", "EDI"), ("dublin", "DUB"),
   ("paris", "PAR"), ("lyon", "LYS"), ("nice", "NCE"),
   ("cote d azur", "NCE"), ("côte d azur", "NCE"), ("amsterdam", "AMS"),
   ("bruxelas", "BRU"), ("berlim", "BER"), ("frankfurt", "FRA"),
   ("munique", "MUC"), ("munich", "MUC"), ("hamburgo", "HAM"),
   ("dusseldorf", "DUS"), ("düsseldorf", "DUS"), ("colonia", "CGN"),
   ("colônia", "CGN"), ("zurique", "ZRH"), ("genebra", "GVA"),
   ("basel", "BSL"), ("viena", "VIE"), ("praga", "PRG"),
   ("budapeste", "BUD"), ("varsovia", "WAW"), ("varsóvia", "WAW"),
   ("krakow", "KRK"), ("cracovia", "KRK"), ("copenhague", "CPH"),
   ("estocolmo", "STO"), ("oslo", "OSL"), ("helsinki", "HEL"),
   ("roma", "ROM"), ("veneza", "VCE"), ("milao", "MIL"),
   ("milão", "MIL"), ("florenca", "FLR"), ("florença", "FLR"),
   ("napoles", "NAP"), ("nápoles", "NAP"), ("atenas", "ATH"),
   ("santorini", "JTR"), ("mykonos", "JMK"), ("casablanca", "CMN"),
   ("marrakesh", "RAK"), ("marraquesh", "RAK"), ("agadir", "AGA"),
   ("cairo", "CAI"), ("hurghada", "HRG"), ("sharm el sheikh", "SSH"),
   ("johanesburgo", "JNB"), ("cidade do cabo", "CPT"), ("cape town", "CPT"),
   ("nairobi", "NBO"), ("istambul", "IST"), ("istanbul", "IST"),
   ("dubai", "DXB"), ("abu dhabi", "AUH"), ("doha", "DOH"),
   ("tel aviv", "TLV"), ("toquio", "TYO"), ("tokyo", "TYO"),
   ("osaka", "OSA"), ("kyoto", "OSA"), ("nara", "OSA"),
   ("seul", "SEL"), ("pequim", "BJS"), ("beijing", "BJS"),
   ("xangai", "SHA"), ("shanghai", "SHA"), ("hong kong", "HKG"),
   ("macau", "MFM"), ("shenzhen", "SZX"), ("bangkok", "BKK"),
   ("phuket", "HKT"), ("chiang mai", "CNX"), ("hanoi", "HAN"),
   ("ho chi minh", "SGN"), ("kuala lumpur", "KUL"), ("singapura", "SIN"),
   ("bali", "DPS"), ("denpasar", "DPS"), ("jacarta", "JKT"),
   ("manila", "MNL"), ("cebu", "CEB"), ("delhi", "DEL"),
   ("mumbai", "BOM"), ("bangalore", "BLR"), ("chennai", "MAA"),
   ("hyderabad", "HYD"), ("goa", "GOI"), ("sydney", "SYD"),
   ("melbourne", "MEL"), ("brisbane", "BNE"), ("perth", "PER"),
   ("adelaide", "ADL"), ("auckland", "AKL"), ("queenstown", "ZQN"),
   ("wellington", "WLG"), ("christchurch", "CHC"), ("portugal", "LIS"),
   ("espanha", "MAD"), ("franca", "PAR"), ("france", "PAR"),
   ("italia", "ROM"), ("italy", "ROM"), ("alemanha", "BER"),
   ("germany", "BER"), ("reino unido", "LON"), ("uk", "LON"),
   ("united kingdom", "LON"), ("irlanda", "DUB"), ("holanda", "AMS"),
   ("paises baixos", "AMS"), ("netherlands", "AMS"), ("suica", "ZRH"),
   ("switzerland", "ZRH"), ("austria", "VIE"), ("hungria", "BUD"),
   ("polonia", "WAW"), ("dinamarca", "CPH"), ("suecia", "STO"),
   ("noruega", "OSL"), ("grecia", "ATH"), ("turquia", "IST"),
   ("marrocos", "CMN"), ("egito", "CAI"), ("emirados arabes", "DXB"),
   ("emirados", "DXB"), ("uae", "DXB"), ("qatar", "DOH"),
   ("israel", "TLV"), ("japao", "TYO"), ("coreia do sul", "SEL"),
   ("china", "BJS"), ("singapura pais", "SIN"), ("tailandia", "BKK"),
   ("indonesia", "CGK"), ("filipinas", "MNL"), ("australia", "SYD"),
   ("nova zelandia", "AKL"), ("canada", "YTO"), ("mexico pais", "MEX"),
   ("estados unidos", "NYC"), ("eua", "NYC"), ("usa", "NYC"),
   ("argentina", "BUE"), ("chile", "SCL"), ("uruguai", "MVD"),
   ("peru", "LIM"), ("colombia", "BOG"), ("bolivia", "LPB"),
   ("equador", "UIO")]

/-- Function `preferCityCode` from `api/roteiro.js`. -/
def preferCityCode (code : String) : String :=
  (findValS AIRPORT_TO_CITY (toUpperS code)).getD (toUpperS code)

/-- The regex class `\w` (no Unicode flag on the source's regex). -/
def isWordChar (c : Char) : Bool :=
  decide ('a' ≤ c ∧ c ≤ 'z') || decide ('A' ≤ c ∧ c ≤ 'Z') ||
    decide ('0' ≤ c ∧ c ≤ '9') || c == '_'

def isUC (c : Char) : Bool := decide ('A' ≤ c ∧ c ≤ 'Z')

/-- Right word boundary: end of string or a non-word character. -/
def boundaryOk : List Char → Bool
  | [] => true
  | d :: _ => !isWordChar d

/-- Leftmost match of the regex for a three-letter uppercase token with
word boundaries on both sides; the flag records whether the previous
character was a word character (for the left boundary). -/
def scanIata : Bool → List Char → Option (List Char)
  | _, [] => none
  | _, [_] => none
  | _, [_, _] => none
  | prevW, a :: b :: c :: rest2 =>
    if !prevW && isUC a && isUC b && isUC c && boundaryOk rest2 then some [a, b, c]
    else scanIata (isWordChar a) (b :: c :: rest2)

/-- Function `looksLikeIata` from `api/roteiro.js`: uppercase, then find
the first bare three-letter token. -/
def looksLikeIata (s : List Char) : Option (List Char) := scanIata false (s.map upperC)

/-- One autocomplete candidate (`type`, `code`, `city_code`). -/
structure AutoPlace where
  ptype : String
  code : Option String
  city_code : Option String

/-- JS truthiness for an optional string: absent and empty are falsy. -/
def truthyS : Option String → Option String
  | some s => if s = "" then none else some s
  | none => none

def takeUntilComma (s : List Char) : List Char := s.takeWhile (fun c => !(c == ','))

def countryWords : List (List Char) :=
  ["brasil".data, "brazil".data, "portugal".data, "espanha".data,
   "italia".data, "italy".data, "franca".data, "france".data]

def splitOnSpaceAux : List Char → List Char → List (List Char)
  | acc, [] => [acc.reverse]
  | acc, c :: r =>
    if c == ' ' then acc.reverse :: splitOnSpaceAux [] r
    else splitOnSpaceAux (c :: acc) r

def splitOnSpace (s : List Char) : List (List Char) := splitOnSpaceAux [] s

def interJoin (sep : List Char) : List (List Char) → List Char
  | [] => []
  | [w] => w
  | w :: ws => w ++ sep ++ interJoin sep ws

/-- Removal of whole country-name words from a normalized candidate
(the source removes the matched words and trims; the candidate is then
normalized again before lookup, so rejoining with single spaces is
equivalent). -/
def removeCountryWords (s : List Char) : List Char :=
  interJoin " ".data
    ((splitOnSpace s).filter (fun w => !(countryWords.contains w) && !w.isEmpty))

/-- Function `resolveIataTerm` from `api/roteiro.js`: direct extraction
(collapsed to the city code), then alias-table lookup over normalized
candidate variants, then the autocomplete oracle, else `null`. -/
def resolveIataTerm (auto : List Char → List AutoPlace) (term : String) : Option String :=
  if term = "" then none
  else
    match looksLikeIata term.data with
    | some code => some (preferCityCode (String.mk code))
    | none =>
      let raw := term.data
      let byComma := takeUntilComma raw
      let candidates : List (List Char) :=
        [raw, byComma, normalizeKey raw, normalizeKey byComma,
          removeCountryWords (normalizeKey byComma)].filter (fun c => !c.isEmpty)
      match candidates.findSome? (fun c =>
          let k := normalizeKey c
          if k.isEmpty then none else findValS IATA_HINTS (String.mk k)) with
      | some hit => some hit
      | none =>
        let data := auto byComma
        match data.find? (fun x => x.ptype == "city" && (truthyS x.code).isSome) with
        | some city => (truthyS city.code).map toUpperS
        | none =>
          match data.find? (fun x =>
              x.ptype == "airport" &&
                ((truthyS x.city_code).isSome || (truthyS x.code).isSome)) with
          | some ap =>
            match truthyS ap.city_code with
            | some cc => some (toUpperS cc)
            | none =>
              match truthyS ap.code with
              | some c => some (preferCityCode (toUpperS c))
              | none => none
          | none => none

/-- An autocomplete oracle returning no candidates (used by witnesses). -/
def autoNone : List Char → List AutoPlace := fun _ => []

theorem upperC_idem (ch : Char) : upperC (upperC ch) = upperC ch := by
  cases h : findVal upperPairs ch with
  | none => simp [upperC, h]
  | some v =>
    have hm := findVal_mem h
    have hv : upperC ch = v := by simp [upperC, h]
    rw [hv]
    have DF : ∀ p ∈ upperPairs, upperC p.2 = p.2 := by decide
    exact DF _ hm

theorem map_upperC_idem (l : List Char) : (l.map upperC).map upperC = l.map upperC := by
  induction l with
  | nil => rfl
  | cons c r ih => simp only [List.map_cons, upperC_idem, ih]

theorem toUpperS_idem (s : String) : toUpperS (toUpperS s) = toUpperS s :=
  congrArg String.mk (map_upperC_idem s.data)

theorem preferCityCode_eq (c : String) :
    preferCityCode c = (findValS AIRPORT_TO_CITY (toUpperS c)).getD (toUpperS c) := rfl

set_option maxRecDepth 8192 in
/-- C10: every value of the `AIRPORT_TO_CITY` table is a fixed point of
the airport-to-city collapse, hence `preferCityCode` is idempotent on
every code, so re-applying the collapse to an already-resolved code (as
the handler does after `resolveIataTerm`) never changes the result. -/
theorem preferCityCode_idempotent :
    (∀ p ∈ AIRPORT_TO_CITY, preferCityCode p.2 = p.2) ∧
      ∀ c : String, preferCityCode (preferCityCode c) = preferCityCode c := by
  have DF : ∀ p ∈ AIRPORT_TO_CITY, preferCityCode p.2 = p.2 := by decide
  refine ⟨DF, ?_⟩
  intro c
  cases h : findValS AIRPORT_TO_CITY (toUpperS c) with
  | none =>
    rw [preferCityCode_eq c, h, Option.getD_none, preferCityCode_eq, toUpperS_idem, h,
      Option.getD_none]
  | some v =>
    rw [preferCityCode_eq c, h, Option.getD_some]
    exact DF _ (findValS_mem h)

set_option maxRecDepth 8192 in
/-- Witness for C10 at the table entry `GRU ↦ SAO`. -/
theorem preferCityCode_idempotent_witness :
    ("GRU", "SAO") ∈ AIRPORT_TO_CITY ∧ preferCityCode ("GRU", "SAO").2 = ("GRU", "SAO").2 :=
  ⟨by decide, preferCityCode_idempotent.1 ("GRU", "SAO") (by decide)⟩

theorem scanIata_upper :
    ∀ {s : List Char} {b : Bool} {code : List Char}, scanIata b s = some code →
      ∀ ch ∈ code, isUC ch = true := by
  intro s
  induction s with
  | nil => intro b code h; rw [scanIata] at h; cases h
  | cons a rest ih =>
    intro b code h ch hch
    cases rest with
    | nil => rw [scanIata] at h; cases h
    | cons b2 rest1 =>
      cases rest1 with
      | nil => rw [scanIata] at h; cases h
      | cons c2 rest2 =>
        rw [scanIata] at h
        by_cases hcond : (!b && isUC a && isUC b2 && isUC c2 && boundaryOk rest2) = true
        · rw [if_pos hcond] at h
          cases h
          simp only [Bool.and_eq_true] at hcond
          rcases hcond with ⟨⟨⟨⟨_, ha⟩, hb⟩, hc⟩, _⟩
          simp only [List.mem_cons, List.not_mem_nil, or_false] at hch
          rcases hch with rfl | rfl | rfl
          · exact ha
          · exact hb
          · exact hc
        · rw [if_neg hcond] at h
          exact ih h ch hch

theorem upperC_fixed_of_UC {ch : Char} (h : isUC ch = true) : upperC ch = ch := by
  cases hf : findVal upperPairs ch with
  | none => simp [upperC, hf]
  | some v =>
    have hm := findVal_mem hf
    have DF : ∀ p ∈ upperPairs, isUC p.1 = false := by decide
    have := DF _ hm
    rw [h] at this
    cases this

theorem toUpperS_fixed_of_scan {s code : List Char} (h : scanIata false s = some code) :
    toUpperS (String.mk code) = String.mk code := by
  rw [toUpperS]
  exact congrArg String.mk
    (map_id_of code (fun ch hch => upperC_fixed_of_UC (scanIata_upper h ch hch)))

/-- Shared helper: resolution step 1 — a term with a directly-embedded
three-letter code resolves to that code collapsed through
`preferCityCode`, whatever the autocomplete oracle does. -/
theorem resolveIata_direct (auto : List Char → List AutoPlace) (term : String)
    (code : List Char) (h : looksLikeIata term.data = some code) :
    resolveIataTerm auto term = some (preferCityCode (String.mk code)) := by
  have ht : ¬(term = "") := by
    intro he
    subst he
    rw [looksLikeIata] at h
    cases h
  rw [resolveIataTerm, if_neg ht, h]

set_option maxRecDepth 8192 in
/-- C4: whenever a term contains a directly-embedded three-letter code
(first match of the extraction regex), resolution returns the
`preferCityCode` collapse of that code; if the code has an aggregator
mapping, the aggregator is returned; in particular
`resolveIataTerm "São Paulo, GRU"` returns `"SAO"` and not `"GRU"`. -/
theorem resolveIata_city_preference :
    (∀ (auto : List Char → List AutoPlace) (term : String) (code : List Char),
      looksLikeIata term.data = some code →
        resolveIataTerm auto term = some (preferCityCode (String.mk code))) ∧
    (∀ (auto : List Char → List AutoPlace) (term : String) (code : List Char) (city : String),
      looksLikeIata term.data = some code →
        findValS AIRPORT_TO_CITY (String.mk code) = some city →
        resolveIataTerm auto term = some city) ∧
    (∀ auto : List Char → List AutoPlace,
      resolveIataTerm auto "São Paulo, GRU" = some "SAO" ∧
        resolveIataTerm auto "São Paulo, GRU" ≠ some "GRU") := by
  refine ⟨resolveIata_direct, ?_, ?_⟩
  · intro auto term code city h hmap
    rw [resolveIata_direct auto term code h]
    rw [preferCityCode, toUpperS_fixed_of_scan h, hmap, Option.getD_some]
  · intro auto
    have h : looksLikeIata ("São Paulo, GRU" : String).data = some ['G', 'R', 'U'] := by
      decide
    have h2 := resolveIata_direct auto "São Paulo, GRU" _ h
    have h3 : preferCityCode (String.mk ['G', 'R', 'U']) = "SAO" := by decide
    rw [h3] at h2
    refine ⟨h2, ?_⟩
    rw [h2]
    intro hc
    exact absurd (Option.some.inj hc) (by decide)

set_option maxRecDepth 8192 in
/-- Witness for C4: the embedded code of `"São Paulo, GRU"` and the
resolution computed through the claim theorem. -/
theorem resolveIata_city_preference_witness :
    looksLikeIata ("São Paulo, GRU" : String).data = some ['G', 'R', 'U'] ∧
      resolveIataTerm autoNone "São Paulo, GRU" =
        some (preferCityCode (String.mk ['G', 'R', 'U'])) :=
  ⟨by decide,
    resolveIata_city_preference.1 autoNone "São Paulo, GRU" ['G', 'R', 'U'] (by decide)⟩


/-! ## Exchange rates (`getFxBRLto`, claims C5 and C6) and the
money-pairing display (`pairBRLWithLocal`, claim C9)

Each provider attempt is an oracle value: a thrown error / timeout, or
a parsed response whose rate for the target is absent / non-finite
(`none`) or a number.  The function also returns the list of providers
actually attempted over the network. -/

structure FxQuote where
  rate : ℚ
  inverse : ℚ
  provider : String
deriving DecidableEq

inductive FxResp where
  | err
  | rates (r : Option ℚ)
deriving DecidableEq

/-- Acceptance test of one attempt: the source requires a finite rate
with `rate > 0`. -/
def fxAccept : FxResp → Option ℚ
  | .err => none
  | .rates none => none
  | .rates (some r) => if 0 < r then some r else none

/-- Function `getFxBRLto` from `api/roteiro.js` (the `date` field of
the source's quote is wall-clock formatting and is omitted).  The
second component is the list of providers attempted. -/
def getFxBRLto (code : String) (p1 p2 p3 : FxResp) : FxQuote × List String :=
  let target := toUpperS code
  if target = "" ∨ target = "BRL" then (⟨1, 1, "none"⟩, [])
  else
    match fxAccept p1 with
    | some r => (⟨r, 1 / r, "exchangerate.host"⟩, ["exchangerate.host"])
    | none =>
      match fxAccept p2 with
      | some r => (⟨r, 1 / r, "frankfurter.app"⟩, ["exchangerate.host", "frankfurter.app"])
      | none =>
        match fxAccept p3 with
        | some r => (⟨r, 1 / r, "open.er-api.com"⟩,
            ["exchangerate.host", "frankfurter.app", "open.er-api.com"])
        | none => (⟨0, 0, "unavailable"⟩,
            ["exchangerate.host", "frankfurter.app", "open.er-api.com"])

/-- C5: for every non-BRL (and nonempty) target currency, if all three
providers fail — exception/timeout, or a response without a finite
positive rate for the target — `getFxBRLto` returns the sentinel quote
`rate = 0`, `inverse = 0`, `provider = "unavailable"`; being a total
function, it never throws. -/
theorem getFx_allfail_sentinel (code : String) (p1 p2 p3 : FxResp)
    (hne : toUpperS code ≠ "") (hnb : toUpperS code ≠ "BRL")
    (h1 : fxAccept p1 = none) (h2 : fxAccept p2 = none) (h3 : fxAccept p3 = none) :
    (getFxBRLto code p1 p2 p3).1 = ⟨0, 0, "unavailable"⟩ := by
  rw [getFxBRLto]
  rw [if_neg (by rintro (h | h) <;> [exact hne h; exact hnb h])]
  rw [h1, h2, h3]

/-- Witness for C5: target `"USD"` with all three providers throwing. -/
theorem getFx_allfail_sentinel_witness :
    toUpperS "USD" ≠ "" ∧ toUpperS "USD" ≠ "BRL" ∧
      fxAccept .err = none ∧
      (getFxBRLto "USD" .err .err .err).1 = ⟨0, 0, "unavailable"⟩ :=
  ⟨by decide, by decide, rfl,
    getFx_allfail_sentinel "USD" .err .err .err (by decide) (by decide) rfl rfl rfl⟩

/-- C6: `getFxBRLto "BRL"` always returns `rate = 1`, `inverse = 1`,
`provider = "none"`, and attempts no provider (the empty trace: no
network call), whatever the three oracles would have answered. -/
theorem getFx_BRL (p1 p2 p3 : FxResp) :
    getFxBRLto "BRL" p1 p2 p3 = (⟨1, 1, "none"⟩, []) := by
  rw [getFxBRLto]
  rw [if_pos (Or.inr (by decide))]

/-- Outcome of the money-pairing display: `null`, BRL-only formatting,
or BRL plus the converted local amount (the `Intl` formatting itself is
abstracted into the constructors). -/
inductive PairOut where
  | nullP
  | brlOnly (v : ℚ)
  | both (v : ℚ) (localAmt : ℚ) (code : String)
deriving DecidableEq

/-- Function `pairBRLWithLocal` from `api/roteiro.js`: `null` for a
non-finite amount; BRL-only when the quote code is falsy or `BRL`, or
the rate is non-finite or `≤ 0`; otherwise BRL paired with
`brlValue * brlToQuote` in the local currency. -/
def pairBRLWithLocal (brlValue : Option ℚ) (quoteCode : Option String)
    (brlToQuote : Option ℚ) : PairOut :=
  match brlValue with
  | none => .nullP
  | some v =>
    match quoteCode, brlToQuote with
    | some s, some r =>
      if s = "" ∨ toUpperS s = "BRL" ∨ r ≤ 0 then .brlOnly v
      else .both v (v * r) s
    | _, _ => .brlOnly v

/-- C9: for every finite BRL amount, whenever the BRL-to-quote rate is
`0`, negative or non-finite, or the quote currency is `BRL` (or falsy),
the display returns only the BRL formatting — no local conversion is
computed (and the function performs no division at all), so the
`rate = 0` sentinel never causes a divide-by-zero in display. -/
theorem pairBRLWithLocal_safe (v : ℚ) (quoteCode : Option String) (brlToQuote : Option ℚ)
    (h : brlToQuote = none ∨ (∃ r, brlToQuote = some r ∧ r ≤ 0) ∨
      quoteCode = none ∨ quoteCode = some "" ∨
      (∃ s, quoteCode = some s ∧ toUpperS s = "BRL")) :
    pairBRLWithLocal (some v) quoteCode brlToQuote = .brlOnly v := by
  cases quoteCode with
  | none => rfl
  | some s =>
    cases brlToQuote with
    | none => rfl
    | some r =>
      show (if s = "" ∨ toUpperS s = "BRL" ∨ r ≤ 0 then PairOut.brlOnly v
        else PairOut.both v (v * r) s) = PairOut.brlOnly v
      rcases h with h | ⟨r', hr, hle⟩ | h | h | ⟨s', hs, hbrl⟩
      · simp at h
      · rw [if_pos (Or.inr (Or.inr (Option.some.inj hr ▸ hle)))]
      · simp at h
      · rw [if_pos (Or.inl (Option.some.inj h))]
      · rw [if_pos (Or.inr (Or.inl ((Option.some.inj hs) ▸ hbrl)))]

/-- Witness for C9: the `rate = 0` sentinel with quote `"USD"`. -/
theorem pairBRLWithLocal_safe_witness :
    ((some (0 : ℚ) : Option ℚ) = none ∨
        (∃ r, (some (0 : ℚ) : Option ℚ) = some r ∧ r ≤ 0) ∨
        (some "USD" : Option String) = none ∨ (some "USD" : Option String) = some "" ∨
        (∃ s, (some "USD" : Option String) = some s ∧ toUpperS s = "BRL")) ∧
      pairBRLWithLocal (some 100) (some "USD") (some 0) = .brlOnly 100 :=
  ⟨Or.inr (Or.inl ⟨0, rfl, le_refl 0⟩),
    pairBRLWithLocal_safe 100 (some "USD") (some 0)
      (Or.inr (Or.inl ⟨0, rfl, le_refl 0⟩))⟩

/-! ## Flight search (`searchFlightsAviasales`, claims C1 and C3)

Dates are day indices (`Int`): the source's `daysBetween` parses
`YYYY-MM-DD` strings into UTC midnights and divides by 86400000, which
is exactly the difference of day indices.  The pricing API is an oracle
`FQuery → FResp`; the result also carries the list of queries issued,
so that "independent one-way queries", "single automatic retry" and
"not retried" are provable.  The `_forceFallback` recursion of the
source is unfolded: the retried call immediately takes the decomposed
branch, which is `searchOneWay`. -/

structure FQuery where
  o : String
  d : String
  dep : Option Int
  retAt : Option Int
deriving DecidableEq

/-- One raw item of the provider response (`data[]`), with `none` for
absent fields. -/
structure RawFlight where
  origin : Option String
  destination : Option String
  depart_date : Option Int
  departure_at : Option Int
  return_date : Option Int
  airline : Option String
  transfers : Option Int
  stops : Option Int
  duration_to : Option ℚ
  duration_back : Option ℚ
  price : Option ℚ
  link : Option String
deriving DecidableEq

/-- A provider response: HTTP success flag and status, parsed items,
and the `_raw` / `error` / `message` fields of the error payload. -/
structure FResp where
  ok : Bool
  status : Nat
  items : List RawFlight
  raw : Option String
  errField : Option String
  msgField : Option String
deriving DecidableEq

def roundQ (q : ℚ) : Int := ⌊q + 1 / 2⌋

/-- Function `minToHM` from `api/roteiro.js` (on the nonnegative minute
counts the API returns, the source's `m % 60` equals
`m - 60 * Math.floor(m / 60)`). -/
def minToHM (m : ℚ) : String :=
  toString (⌊m / 60⌋ : Int) ++ "h" ++
    (if roundQ (m - 60 * ⌊m / 60⌋) ≠ 0 then
      " " ++ toString (roundQ (m - 60 * ⌊m / 60⌋)) ++ "m"
    else "")

/-- Function `joinDuration` from `api/roteiro.js`; `none` models the
non-finite (absent) duration, and the `|| null` of an empty join. -/
def joinDurationS (d1 d2 : Option ℚ) : Option String :=
  match (match d1 with
         | some v => ["ida " ++ minToHM v]
         | none => []) ++
        (match d2 with
         | some v => ["volta " ++ minToHM v]
         | none => []) with
  | [] => none
  | ps => some (String.intercalate " / " ps)

/-- One normalized `FlightOffer` (`currency` is constantly BRL and
omitted; `priceDisp` is the numeric content of the formatted `price`
string). -/
structure Offer where
  fromC : String
  toC : String
  dep : Option Int
  ret : Option Int
  airline : Option String
  stops : Option Int
  duration : Option String
  price_number : Option ℚ
  priceDisp : Option Int
  deep_link : Option String
deriving DecidableEq

/-- Function `mapItems` of `searchFlightsAviasales`: truncate to
`limit` and normalize each raw item, with JS `||`/`??` fallbacks. -/
def mapItems (limit : Nat) (items : List RawFlight) (o d : String)
    (dep retAt : Option Int) : List Offer :=
  (items.take limit).map (fun x =>
    { fromC := (truthyS x.origin).getD o
      toC := (truthyS x.destination).getD d
      dep := (x.depart_date <|> x.departure_at) <|> dep
      ret := match retAt with
        | some r => some (x.return_date.getD r)
        | none => none
      airline := truthyS x.airline
      stops := x.transfers <|> x.stops
      duration := joinDurationS x.duration_to x.duration_back
      price_number := x.price
      priceDisp := match x.price with
        | some p => if p ≠ 0 then some (roundQ p) else none
        | none => none
      deep_link := truthyS x.link })

/-- A synthesized round-trip suggestion (the `_combo` references are the
`outbound`/`back` fields). -/
structure ComboOffer where
  fromC : String
  toC : String
  dep : Option Int
  ret : Option Int
  airline : Option String
  stops : Int
  duration : String
  price_number : ℚ
  priceDisp : Int
  outbound : Offer
  back : Offer
deriving DecidableEq

/-- One combined entry of the decomposed mode: prices summed with
`|| 0`, stop counts summed with `?? 0`, duration texts joined. -/
def mkCombo (a b : Offer) : ComboOffer :=
  { fromC := a.fromC
    toC := a.toC
    dep := a.dep
    ret := b.dep
    airline := a.airline <|> b.airline
    stops := a.stops.getD 0 + b.stops.getD 0
    duration := String.intercalate " / " (List.filterMap id [a.duration, b.duration])
    price_number := a.price_number.getD 0 + b.price_number.getD 0
    priceDisp := roundQ (a.price_number.getD 0 + b.price_number.getD 0)
    outbound := a
    back := b }

/-- Cartesian product of the first three offers of each leg (the
source's nested loops over `slice(0, 3)`). -/
def combineTop3 (outs rets : List Offer) : List ComboOffer :=
  ((outs.take 3).map (fun a => (rets.take 3).map (fun b => mkCombo a b))).flatten

def comboLE (x y : ComboOffer) : Prop := x.price_number ≤ y.price_number

instance : DecidableRel comboLE :=
  fun x y => inferInstanceAs (Decidable (x.price_number ≤ y.price_number))

instance : IsTotal ComboOffer comboLE := ⟨fun a b => le_total a.price_number b.price_number⟩

instance : IsTrans ComboOffer comboLE := ⟨fun _ _ _ h1 h2 => le_trans h1 h2⟩

/-- The source sorts combined entries with the comparator
`(x.price_number ?? 1e12) - (y.price_number ?? 1e12)`; a combined
entry's `price_number` is always a number, so the key is the price.
JS `sort` is stable and so is insertion sort, and two stable sorts by
the same total preorder agree on every list. -/
def sortCombined (l : List ComboOffer) : List ComboOffer := List.insertionSort comboLE l

/-- Sort key of a leg offer (`price_number ?? 1e12`). -/
def offerKey (x : Offer) : ℚ := x.price_number.getD (10 ^ 12)

def offerLE (x y : Offer) : Prop := offerKey x ≤ offerKey y

instance : DecidableRel offerLE :=
  fun x y => inferInstanceAs (Decidable (offerKey x ≤ offerKey y))

inductive FlightResult where
  | noToken (msg : String)
  | errorRes (status : Nat) (msg : String)
  | roundTrip (items : List Offer)
  | decomposed (note : String) (combined : List ComboOffer) (outbound ret : List Offer)
deriving DecidableEq

def decomposedNote : String :=
  "Viagem >30 dias ou sem volta: resultados de ida e volta listados separadamente. (Limite da API)"

def noTokenMsg : String :=
  "TRAVELPAYOUTS_TOKEN não configurado. Cadastre-se no Travelpayouts (gratuito) e defina a variável no projeto."

/-- Outbound leg of the decomposed mode: one-way query
origin→destination at `dep`; a non-success response yields `[]`. -/
def owOutbound (provider : FQuery → FResp) (origin destination : String)
    (dep : Option Int) (limit : Nat) : List Offer :=
  if (provider ⟨origin, destination, dep, none⟩).ok then
    mapItems limit (provider ⟨origin, destination, dep, none⟩).items
      origin destination dep none
  else []

/-- Return leg of the decomposed mode: issued only when a return date
is present (destination→origin at `ret`). -/
def owReturn (provider : FQuery → FResp) (origin destination : String)
    (ret : Option Int) (limit : Nat) : List Offer :=
  match ret with
  | some rr =>
    if (provider ⟨destination, origin, some rr, none⟩).ok then
      mapItems limit (provider ⟨destination, origin, some rr, none⟩).items
        destination origin (some rr) none
    else []
  | none => []

/-- The decomposed (one-way fallback) block of `searchFlightsAviasales`:
the two independent one-way queries, the top-3×top-3 combinations
sorted by total price and truncated to `limit`, and both raw leg lists;
the second component is the trace of issued queries. -/
def searchOneWay (provider : FQuery → FResp) (origin destination : String)
    (depart ret : Option Int) (limit : Nat) : FlightResult × List FQuery :=
  (.decomposed decomposedNote
    ((sortCombined (combineTop3 (owOutbound provider origin destination depart limit)
        (owReturn provider origin destination ret limit))).take limit)
    (owOutbound provider origin destination depart limit)
    (owReturn provider origin destination ret limit),
   ⟨origin, destination, depart, none⟩ ::
     (match ret with
      | some r => [⟨destination, origin, some r, none⟩]
      | none => []))

/-- Test for a date span beyond the provider's 30-day window
(`(ret && depart) ? daysBetween(depart, ret) > 30 : false`). -/
def tooLongB (depart ret : Option Int) : Bool :=
  match depart, ret with
  | some d, some r => decide (30 < r - d)
  | _, _ => false

def tooLongMsg : String := "exceeds supported maximum of 30"

def toLowerS (s : String) : String := String.mk (s.data.map lowerC)

def startsWithList : List Char → List Char → Bool
  | _, [] => true
  | [], _ :: _ => false
  | a :: as, b :: bs => a == b && startsWithList as bs

/-- Model of `String.prototype.includes`. -/
def containsSub : List Char → List Char → Bool
  | [], needle => needle.isEmpty
  | hay@(_ :: t), needle => startsWithList hay needle || containsSub t needle

/-- The round-trip branch of `searchFlightsAviasales`: on a non-success
response whose lowercased `_raw`/`error` text contains the 30-day
message, retry once in decomposed mode (the `_forceFallback` call,
unfolded to `searchOneWay`); on any other non-success response, the
structured error with the provider's status and
`message || _raw || default`; otherwise the round-trip item list. -/
def roundTripCase (provider : FQuery → FResp) (origin destination : String)
    (depart ret : Option Int) (limit : Nat) : FlightResult × List FQuery :=
  if !(provider ⟨origin, destination, depart, ret⟩).ok then
    if containsSub (toLowerS ((truthyS (provider ⟨origin, destination, depart, ret⟩).raw).getD
        ((truthyS (provider ⟨origin, destination, depart, ret⟩).errField).getD ""))).data
        tooLongMsg.data then
      ((searchOneWay provider origin destination depart ret limit).1,
       ⟨origin, destination, depart, ret⟩ ::
         (searchOneWay provider origin destination depart ret limit).2)
    else
      (.errorRes (provider ⟨origin, destination, depart, ret⟩).status
        ((truthyS (provider ⟨origin, destination, depart, ret⟩).msgField).getD
          ((truthyS (provider ⟨origin, destination, depart, ret⟩).raw).getD
            "Erro na API Travelpayouts")),
       [⟨origin, destination, depart, ret⟩])
  else
    (.roundTrip (mapItems limit (provider ⟨origin, destination, depart, ret⟩).items
        origin destination depart ret),
     [⟨origin, destination, depart, ret⟩])

/-- Function `searchFlightsAviasales` from `api/roteiro.js` (token
presence as a flag; the TOKEN-missing message object, the decomposed
block, and the round-trip branch as above). -/
def searchFlightsAviasales (tokenOk : Bool) (provider : FQuery → FResp)
    (origin destination : String) (depart ret : Option Int) (limit : Nat) :
    FlightResult × List FQuery :=
  if !tokenOk then (.noToken noTokenMsg, [])
  else if ret.isNone || depart.isNone || tooLongB depart ret then
    searchOneWay provider origin destination depart ret limit
  else roundTripCase provider origin destination depart ret limit

/-- C1: with the token configured, whenever `returnDate` is absent or
the departure-to-return span exceeds 30 days, the search runs in
decomposed mode: it issues the independent one-way queries (the trace),
and returns `items_outbound`, `items_return` and `items_combined`
instead of a single round-trip list; `items_combined` is the Cartesian
product of the top-3 results of each leg (the top-3 cheapest, given the
price-sorted legs the provider is asked for), entries summing prices
and stop counts and concatenating duration texts, the whole list sorted
ascending by total price and truncated to the result limit. -/
theorem flightSearch_decomposed_spec
    (provider : FQuery → FResp) (origin destination : String)
    (depart ret : Option Int) (limit : Nat)
    (htrig : ret = none ∨ ∃ d r : Int, depart = some d ∧ ret = some r ∧ 30 < r - d)
    (hOutSorted : List.Sorted offerLE (owOutbound provider origin destination depart limit))
    (hRetSorted : List.Sorted offerLE (owReturn provider origin destination ret limit)) :
    (searchFlightsAviasales true provider origin destination depart ret limit =
      (.decomposed decomposedNote
        ((sortCombined (combineTop3 (owOutbound provider origin destination depart limit)
            (owReturn provider origin destination ret limit))).take limit)
        (owOutbound provider origin destination depart limit)
        (owReturn provider origin destination ret limit),
       ⟨origin, destination, depart, none⟩ ::
         (match ret with
          | some r => [⟨destination, origin, some r, none⟩]
          | none => []))) ∧
    List.Sorted comboLE
      ((sortCombined (combineTop3 (owOutbound provider origin destination depart limit)
          (owReturn provider origin destination ret limit))).take limit) ∧
    (∀ x : ComboOffer,
      x ∈ sortCombined (combineTop3 (owOutbound provider origin destination depart limit)
          (owReturn provider origin destination ret limit)) ↔
        ∃ a ∈ (owOutbound provider origin destination depart limit).take 3,
          ∃ b ∈ (owReturn provider origin destination ret limit).take 3,
            x = mkCombo a b) ∧
    ((sortCombined (combineTop3 (owOutbound provider origin destination depart limit)
        (owReturn provider origin destination ret limit))).take limit).length ≤ limit ∧
    (∀ (a b : Offer) (pa pb : ℚ), a.price_number = some pa → b.price_number = some pb →
      (mkCombo a b).price_number = pa + pb ∧
        (mkCombo a b).stops = a.stops.getD 0 + b.stops.getD 0 ∧
        (mkCombo a b).duration =
          String.intercalate " / " (List.filterMap id [a.duration, b.duration])) ∧
    (∀ a ∈ (owOutbound provider origin destination depart limit).take 3,
      ∀ y ∈ (owOutbound provider origin destination depart limit).drop 3,
        offerKey a ≤ offerKey y) ∧
    (∀ b ∈ (owReturn provider origin destination ret limit).take 3,
      ∀ y ∈ (owReturn provider origin destination ret limit).drop 3,
        offerKey b ≤ offerKey y) := by
  refine ⟨?_, ?_, ?_, ?_, ?_, ?_, ?_⟩
  · have hcond : (ret.isNone || depart.isNone || tooLongB depart ret) = true := by
      rcases htrig with rfl | ⟨dd, rr, rfl, rfl, hspan⟩
      · rfl
      · simp only [Option.isNone_some, Bool.false_or, tooLongB]
        exact decide_eq_true hspan
    rw [searchFlightsAviasales, if_neg (by simp), if_pos hcond]
    rfl
  · exact List.Pairwise.sublist (List.take_sublist _ _) (List.sorted_insertionSort comboLE _)
  · intro x
    rw [sortCombined, (List.perm_insertionSort comboLE _).mem_iff, combineTop3]
    constructor
    · intro hx
      rcases List.mem_flatten.mp hx with ⟨l2, hl2, hxl⟩
      rcases List.mem_map.mp hl2 with ⟨a, ha, rfl⟩
      rcases List.mem_map.mp hxl with ⟨b, hb, rfl⟩
      exact ⟨a, ha, b, hb, rfl⟩
    · rintro ⟨a, ha, b, hb, rfl⟩
      exact List.mem_flatten.mpr
        ⟨_, List.mem_map.mpr ⟨a, ha, rfl⟩, List.mem_map.mpr ⟨b, hb, rfl⟩⟩
  · exact List.length_take_le _ _
  · intro a b pa pb ha hb
    refine ⟨?_, rfl, rfl⟩
    simp [mkCombo, ha, hb]
  · intro a ha y hy
    have h : List.Pairwise offerLE (owOutbound provider origin destination depart limit) :=
      hOutSorted
    rw [← List.take_append_drop 3 (owOutbound provider origin destination depart limit),
      List.pairwise_append] at h
    exact h.2.2 a ha y hy
  · intro b hb y hy
    have h : List.Pairwise offerLE (owReturn provider origin destination ret limit) :=
      hRetSorted
    rw [← List.take_append_drop 3 (owReturn provider origin destination ret limit),
      List.pairwise_append] at h
    exact h.2.2 b hb y hy

/-- A raw provider item carrying only a price (witness data). -/
def rawPriced (p : ℚ) : RawFlight :=
  { origin := none, destination := none, depart_date := none, departure_at := none,
    return_date := none, airline := none, transfers := some 0, stops := none,
    duration_to := none, duration_back := none, price := some p, link := none }

/-- A pricing oracle with two priced items per direction (witness data). -/
def sampleProvider : FQuery → FResp := fun q =>
  if q.o == "SAO" then ⟨true, 200, [rawPriced 3000, rawPriced 3500], none, none, none⟩
  else ⟨true, 200, [rawPriced 2000, rawPriced 2500], none, none, none⟩

/-- Witness for C1: a 45-day span triggers decomposed mode on
`sampleProvider`, whose leg lists are price-sorted. -/
theorem flightSearch_decomposed_spec_witness :
    ((some 45 : Option Int) = none ∨
        ∃ d r : Int, (some 0 : Option Int) = some d ∧ (some 45 : Option Int) = some r ∧
          30 < r - d) ∧
      List.Sorted offerLE (owOutbound sampleProvider "SAO" "LIS" (some 0) 6) ∧
      List.Sorted offerLE (owReturn sampleProvider "SAO" "LIS" (some 45) 6) ∧
      searchFlightsAviasales true sampleProvider "SAO" "LIS" (some 0) (some 45) 6 =
        (.decomposed decomposedNote
          ((sortCombined (combineTop3 (owOutbound sampleProvider "SAO" "LIS" (some 0) 6)
              (owReturn sampleProvider "SAO" "LIS" (some 45) 6))).take 6)
          (owOutbound sampleProvider "SAO" "LIS" (some 0) 6)
          (owReturn sampleProvider "SAO" "LIS" (some 45) 6),
         [⟨"SAO", "LIS", some 0, none⟩, ⟨"LIS", "SAO", some 45, none⟩]) :=
  ⟨Or.inr ⟨0, 45, rfl, rfl, by decide⟩, by decide, by decide,
    (flightSearch_decomposed_spec sampleProvider "SAO" "LIS" (some 0) (some 45) 6
      (Or.inr ⟨0, 45, rfl, rfl, by decide⟩) (by decide) (by decide)).1⟩

/-- C3: for a round-trip query within the 30-day window that gets a
non-success response, if the lowercased error text contains the 30-day
message the search retries exactly once in decomposed mode (the trace
is the round-trip query followed by the one-way queries, and the result
is the decomposed result); any other non-success response is returned
as the structured error with the provider's status and message, with no
retry (the trace stays a single query). -/
theorem flightSearch_roundtrip_errors
    (provider : FQuery → FResp) (origin destination : String) (dd rr : Int) (limit : Nat)
    (hspan : rr - dd ≤ 30)
    (hfail : (provider ⟨origin, destination, some dd, some rr⟩).ok = false) :
    (containsSub
        (toLowerS ((truthyS (provider ⟨origin, destination, some dd, some rr⟩).raw).getD
          ((truthyS (provider ⟨origin, destination, some dd, some rr⟩).errField).getD ""))).data
        tooLongMsg.data = true →
      searchFlightsAviasales true provider origin destination (some dd) (some rr) limit =
        ((searchOneWay provider origin destination (some dd) (some rr) limit).1,
         ⟨origin, destination, some dd, some rr⟩ ::
           (searchOneWay provider origin destination (some dd) (some rr) limit).2)) ∧
    (containsSub
        (toLowerS ((truthyS (provider ⟨origin, destination, some dd, some rr⟩).raw).getD
          ((truthyS (provider ⟨origin, destination, some dd, some rr⟩).errField).getD ""))).data
        tooLongMsg.data = false →
      searchFlightsAviasales true provider origin destination (some dd) (some rr) limit =
        (.errorRes (provider ⟨origin, destination, some dd, some rr⟩).status
          ((truthyS (provider ⟨origin, destination, some dd, some rr⟩).msgField).getD
            ((truthyS (provider ⟨origin, destination, some dd, some rr⟩).raw).getD
              "Erro na API Travelpayouts")),
         [⟨origin, destination, some dd, some rr⟩])) := by
  have hcond : ((some rr : Option Int).isNone || (some dd : Option Int).isNone ||
      tooLongB (some dd) (some rr)) = false := by
    simp only [Option.isNone_some, Bool.false_or, tooLongB]
    exact decide_eq_false (not_lt.mpr hspan)
  constructor
  · intro hsub
    rw [searchFlightsAviasales, if_neg (by simp),
      if_neg (by intro h; rw [hcond] at h; simp at h), roundTripCase,
      if_pos (by simp [hfail]), if_pos hsub]
  · intro hsub
    rw [searchFlightsAviasales, if_neg (by simp),
      if_neg (by intro h; rw [hcond] at h; simp at h), roundTripCase,
      if_pos (by simp [hfail]), if_neg (by simp [hsub])]

/-- A pricing oracle rejecting round trips with the 30-day message
(witness data). -/
def sampleProviderErr : FQuery → FResp := fun q =>
  if q.retAt.isSome then
    ⟨false, 400, [],
      some "Requested date range exceeds supported maximum of 30 days", none, none⟩
  else ⟨true, 200, [], none, none, none⟩

/-- Witness for C3: a 10-day round trip rejected with the 30-day
message is retried once in decomposed mode. -/
theorem flightSearch_roundtrip_errors_witness :
    (10 : Int) - 0 ≤ 30 ∧
      (sampleProviderErr ⟨"SAO", "LIS", some 0, some 10⟩).ok = false ∧
      containsSub
        (toLowerS ((truthyS (sampleProviderErr ⟨"SAO", "LIS", some 0, some 10⟩).raw).getD
          ((truthyS (sampleProviderErr ⟨"SAO", "LIS", some 0, some 10⟩).errField).getD ""))).data
        tooLongMsg.data = true ∧
      searchFlightsAviasales true sampleProviderErr "SAO" "LIS" (some 0) (some 10) 6 =
        ((searchOneWay sampleProviderErr "SAO" "LIS" (some 0) (some 10) 6).1,
         ⟨"SAO", "LIS", some 0, some 10⟩ ::
           (searchOneWay sampleProviderErr "SAO" "LIS" (some 0) (some 10) 6).2) :=
  ⟨by decide, rfl, by decide,
    (flightSearch_roundtrip_errors sampleProviderErr "SAO" "LIS" 0 10 6 (by decide) rfl).1
      (by decide)⟩

end Roteiro
